import Mathlib

/-!
Shallow embedding of the two analysis pipelines of this repository,
`src/analyze_benchmark.py` (namespace `Bench`) and `src/analyze_iteration.py`
(namespace `Iter`), together with proofs settling the frozen claims.

Modelling conventions:
* A CSV cell, as it comes out of `pd.read_csv`, is a `Cell`: a parsed number,
  an empty cell (pandas `NaN`), or unparseable text.  A pandas column whose
  cells are all numeric-or-empty has a float dtype and its missing entries are
  `NaN`; such a possibly-missing value is an `Option ℚ` (`none` = `NaN`).
* Numbers are embedded as `ℚ`; pandas reductions (`mean`, `std`, `quantile`,
  `corr`) skip `NaN` values exactly as pandas does with `skipna=True`, and
  reductions that are `NaN` (e.g. sample `std` of fewer than two values,
  `ddof=1`) are `none`.
* `std` and Pearson `corr` involve a square root, so their values live in
  `Option ℝ`; every branch condition along the way is a decidable statement
  about `ℚ`, so the `NaN`-structure of those quantities is still computable.
-/

/-- One CSV cell as produced by `pd.read_csv`: a parsed number, an empty cell
(pandas `NaN`), or non-numeric text. -/
inductive Cell where
  | num (q : ℚ)
  | na
  | txt (s : String)
deriving DecidableEq, Repr

/-- `pd.to_numeric(col, errors='coerce')` on one cell: numbers survive, empty
cells and unparseable text become `NaN` (`none`). -/
def Cell.toNum : Cell → Option ℚ
  | .num q => some q
  | .na => none
  | .txt _ => none

/-- Whether a cell is non-numeric text; a column containing such a cell has
object dtype after `pd.read_csv`, so arithmetic/comparisons on it raise. -/
def Cell.isTxt : Cell → Bool
  | .txt _ => true
  | _ => false

/-- The valid (non-`NaN`) values of a possibly-missing column, in order; this
is what a pandas reduction with `skipna=True` actually reduces over. -/
def valids (xs : List (Option ℚ)) : List ℚ := xs.filterMap id

/-- Arithmetic mean of a list of rationals (`Series.mean` on a fully valid
column).  Division by zero in `ℚ` is `0`, but every use below is on a
nonempty list. -/
def meanQ (xs : List ℚ) : ℚ := xs.sum / xs.length

/-- Sample variance with `ddof = 1` (the pandas default for `Series.std`):
`Σ (x - mean)² / (n - 1)`.  Meaningful only for `2 ≤ n`; every use below is
guarded by that condition. -/
def varQ (xs : List ℚ) : ℚ :=
  (xs.map (fun x => (x - meanQ xs) ^ 2)).sum / ((xs.length - 1 : ℕ) : ℚ)

/-- Sample covariance with `ddof = 1`, used by Pearson correlation. -/
def covarQ (xs ys : List ℚ) : ℚ :=
  ((xs.zip ys).map (fun p => (p.1 - meanQ xs) * (p.2 - meanQ ys))).sum
    / ((xs.length - 1 : ℕ) : ℚ)

/-- `Series.mean()` of a possibly-missing column: skips `NaN`s, and is `NaN`
(`none`) when no valid value remains. -/
def meanO (xs : List (Option ℚ)) : Option ℚ :=
  if valids xs = [] then none else some (meanQ (valids xs))

/-- `Series.var()` (`ddof = 1`) of a possibly-missing column: skips `NaN`s and
is `NaN` (`none`) with fewer than two valid values. -/
def varO (xs : List (Option ℚ)) : Option ℚ :=
  if 2 ≤ (valids xs).length then some (varQ (valids xs)) else none

/-- `Series.std()` (`ddof = 1`): square root of the sample variance, `NaN`
(`none`) with fewer than two values. -/
noncomputable def stdO (xs : List ℚ) : Option ℝ :=
  if 2 ≤ xs.length then some (Real.sqrt ((varQ xs : ℚ) : ℝ)) else none

/-- `Series.max()`: the largest element (callers pass nonempty lists). -/
def listMax (xs : List ℚ) : ℚ := xs.foldl max (xs.headD 0)

/-- `Series.min()`: the smallest element (callers pass nonempty lists). -/
def listMin (xs : List ℚ) : ℚ := xs.foldl min (xs.headD 0)

/-- Linear interpolation into a sorted list at fractional index `h`, exactly
numpy's `linear` interpolation step: with `i = ⌊h⌋`,
`x[i] + (h - i) * (x[i+1] - x[i])` (the `i+1` access falls back to `x[i]` at
the top index, where the fractional part is `0` anyway). -/
def interpSorted (s : List ℚ) (h : ℚ) : ℚ :=
  let i := Nat.floor h
  let a := s.getD i 0
  let b := s.getD (i + 1) a
  a + (h - (i : ℚ)) * (b - a)

/-- `Series.quantile(p)` with the default `linear` interpolation: sort the
values and interpolate at index `h = p * (n - 1)`. -/
def quantile (xs : List ℚ) (p : ℚ) : ℚ :=
  interpSorted (List.insertionSort (· ≤ ·) xs) (p * ((xs.length : ℚ) - 1))

/-- `Series.quantile`/`median` of a possibly-missing column: skips `NaN`s, and
is `NaN` when no valid value remains. -/
def quantileO (xs : List (Option ℚ)) (p : ℚ) : Option ℚ :=
  if valids xs = [] then none else some (quantile (valids xs) p)

/-- First-occurrence deduplication, the order `pandas.Series.unique()` returns
group keys in.  The accumulator holds the keys already seen. -/
def uniqAux [DecidableEq α] (seen : List α) : List α → List α
  | [] => []
  | a :: t => if a ∈ seen then uniqAux seen t else a :: uniqAux (a :: seen) t

/-- `df[col].unique()`: the distinct values of a column, in order of first
occurrence. -/
def uniqueFirst [DecidableEq α] (l : List α) : List α := uniqAux [] l

/-- Ascending comparison on a possibly-`NaN` sort key, as in
`DataFrame.sort_values(col)` with the default `na_position='last'`:
valid values ascending, `NaN` keys after every valid key. -/
def optLeB (a b : Option ℚ) : Bool :=
  match a, b with
  | some x, some y => decide (x ≤ y)
  | none, some _ => false
  | _, none => true

/-- `Series.astype(bool)` on one cell: Python truthiness — a number is `True`
iff nonzero, a `NaN` is `True` (`bool(float('nan'))` is `True`), a string is
`True` iff nonempty. -/
def Cell.toBool : Cell → Bool
  | .num q => decide (q ≠ 0)
  | .na => true
  | .txt s => decide (s ≠ "")

/-- The index-aligned pairs on which `Series.corr` actually operates: positions
where both series have a valid (non-`NaN`) value. -/
def pairsOf (xs ys : List (Option ℚ)) : List (ℚ × ℚ) :=
  (xs.zip ys).filterMap (fun ab =>
    match ab with
    | (some x, some y) => some (x, y)
    | _ => none)

/-- `Series.corr(other)` (Pearson, the pandas default): drops `NaN` pairs, then
computes `cov / (std · std)` over the remaining pairs.  The result is `NaN`
(`none`) when fewer than two valid pairs remain or when either remaining
series has zero variance (a `0/0` in floats); otherwise it is the real-valued
correlation coefficient. -/
noncomputable def corrO (xs ys : List (Option ℚ)) : Option ℝ :=
  if (pairsOf xs ys).length < 2 then none
  else if varQ ((pairsOf xs ys).map Prod.fst) = 0 ∨
      varQ ((pairsOf xs ys).map Prod.snd) = 0 then none
  else some
    (((covarQ ((pairsOf xs ys).map Prod.fst) ((pairsOf xs ys).map Prod.snd) : ℚ) : ℝ) /
      (Real.sqrt ((varQ ((pairsOf xs ys).map Prod.fst) : ℚ) : ℝ) *
        Real.sqrt ((varQ ((pairsOf xs ys).map Prod.snd) : ℚ) : ℝ)))

section BasicLemmas

theorem uniqAux_mem [DecidableEq α] (seen : List α) (l : List α) (x : α) :
    x ∈ uniqAux seen l ↔ x ∈ l ∧ x ∉ seen := by
  induction l generalizing seen with
  | nil => simp [uniqAux]
  | cons a t ih =>
    by_cases ha : a ∈ seen
    · rw [show uniqAux seen (a :: t) = uniqAux seen t from if_pos ha, ih]
      constructor
      · exact fun ⟨hx, hs⟩ => ⟨List.mem_cons_of_mem _ hx, hs⟩
      · rintro ⟨hx, hs⟩
        rcases List.mem_cons.mp hx with rfl | hx
        · exact absurd ha hs
        · exact ⟨hx, hs⟩
    · rw [show uniqAux seen (a :: t) = a :: uniqAux (a :: seen) t from if_neg ha]
      simp only [List.mem_cons, ih]
      constructor
      · rintro (rfl | ⟨hx, hs⟩)
        · exact ⟨Or.inl rfl, ha⟩
        · exact ⟨Or.inr hx, fun h => hs (Or.inr h)⟩
      · rintro ⟨hx, hs⟩
        by_cases hxa : x = a
        · exact Or.inl hxa
        · rcases hx with rfl | hx
          · exact absurd rfl hxa
          · exact Or.inr ⟨hx, by simp [List.mem_cons, hxa, hs]⟩

theorem mem_uniqueFirst [DecidableEq α] (l : List α) (x : α) :
    x ∈ uniqueFirst l ↔ x ∈ l := by
  simp [uniqueFirst, uniqAux_mem]

theorem uniqAux_nodup [DecidableEq α] (seen : List α) (l : List α) :
    (uniqAux seen l).Nodup := by
  induction l generalizing seen with
  | nil => simp [uniqAux]
  | cons a t ih =>
    by_cases ha : a ∈ seen
    · rw [show uniqAux seen (a :: t) = uniqAux seen t from if_pos ha]
      exact ih seen
    · rw [show uniqAux seen (a :: t) = a :: uniqAux (a :: seen) t from if_neg ha]
      refine List.nodup_cons.mpr ⟨?_, ih (a :: seen)⟩
      intro hmem
      exact ((uniqAux_mem (a :: seen) t a).mp hmem).2 (List.mem_cons_self a seen)

theorem nodup_uniqueFirst [DecidableEq α] (l : List α) : (uniqueFirst l).Nodup :=
  uniqAux_nodup [] l

theorem sum_allEq (l : List ℚ) (c : ℚ) (h : ∀ x ∈ l, x = c) :
    l.sum = (l.length : ℚ) * c := by
  induction l with
  | nil => simp
  | cons a t ih =>
    have ha : a = c := h a (List.mem_cons_self a t)
    have ht := ih fun x hx => h x (List.mem_cons_of_mem a hx)
    simp only [List.sum_cons, List.length_cons, ha, ht]
    push_cast
    ring

theorem meanQ_allEq (l : List ℚ) (c : ℚ) (hne : l ≠ []) (h : ∀ x ∈ l, x = c) :
    meanQ l = c := by
  have hn : (l.length : ℚ) ≠ 0 := by
    have h := List.length_pos_of_ne_nil hne
    exact_mod_cast Nat.pos_iff_ne_zero.mp h
  rw [meanQ, sum_allEq l c h, mul_comm, mul_div_assoc, div_self hn, mul_one]

theorem meanQ_pos (l : List ℚ) (hne : l ≠ []) (h : ∀ x ∈ l, 0 < x) :
    0 < meanQ l := by
  have hn : (0 : ℚ) < l.length := by
    have := List.length_pos_of_ne_nil hne
    exact_mod_cast this
  exact div_pos (List.sum_pos l h hne) hn

theorem sum_nonneg_eq_zero (l : List ℚ) (h : ∀ x ∈ l, 0 ≤ x) (hs : l.sum = 0) :
    ∀ x ∈ l, x = 0 := by
  induction l with
  | nil => simp
  | cons a t ih =>
    have ha : 0 ≤ a := h a (List.mem_cons_self a t)
    have ht : 0 ≤ t.sum := List.sum_nonneg fun x hx => h x (List.mem_cons_of_mem a hx)
    have hsum : a + t.sum = 0 := by simpa using hs
    have ha0 : a = 0 := by linarith
    have hts : t.sum = 0 := by linarith
    intro x hx
    rcases List.mem_cons.mp hx with rfl | hx
    · exact ha0
    · exact ih (fun y hy => h y (List.mem_cons_of_mem a hy)) hts x hx

theorem varQ_nonneg (l : List ℚ) : 0 ≤ varQ l := by
  refine div_nonneg (List.sum_nonneg ?_) (by positivity)
  intro x hx
  rcases List.mem_map.mp hx with ⟨y, _, rfl⟩
  positivity

theorem varQ_zero_of_allEq (l : List ℚ) (c : ℚ) (h : ∀ x ∈ l, x = c) :
    varQ l = 0 := by
  rcases eq_or_ne l [] with rfl | hne
  · simp [varQ]
  · have hm : meanQ l = c := meanQ_allEq l c hne h
    rw [varQ]
    have : l.map (fun x => (x - meanQ l) ^ 2) = l.map (fun _ => (0 : ℚ)) := by
      refine List.map_congr_left fun x hx => ?_
      rw [h x hx, hm, sub_self]
      ring
    rw [this]
    simp

theorem allEq_of_varQ_zero (l : List ℚ) (h2 : 2 ≤ l.length) (hv : varQ l = 0) :
    ∀ x ∈ l, x = meanQ l := by
  have hden : ((l.length - 1 : ℕ) : ℚ) ≠ 0 := by
    have : 1 ≤ l.length - 1 := by omega
    have : (1 : ℚ) ≤ ((l.length - 1 : ℕ) : ℚ) := by exact_mod_cast this
    linarith
  have hnum : (l.map (fun x => (x - meanQ l) ^ 2)).sum = 0 := by
    rcases (div_eq_zero_iff).mp hv with h | h
    · exact h
    · exact absurd h hden
  intro x hx
  have := sum_nonneg_eq_zero (l.map (fun x => (x - meanQ l) ^ 2))
    (fun y hy => by rcases List.mem_map.mp hy with ⟨z, _, rfl⟩; positivity) hnum
    ((x - meanQ l) ^ 2) (List.mem_map.mpr ⟨x, hx, rfl⟩)
  have hsub : x - meanQ l = 0 := by
    have := sq_eq_zero_iff.mp this
    exact this
  linarith

theorem foldl_max_init (l : List ℚ) (a : ℚ) : a ≤ l.foldl max a := by
  induction l generalizing a with
  | nil => simp
  | cons b t ih => exact le_trans (le_max_left a b) (ih (max a b))

theorem le_foldl_max (l : List ℚ) (a x : ℚ) (hx : x ∈ l) : x ≤ l.foldl max a := by
  induction l generalizing a with
  | nil => cases hx
  | cons b t ih =>
    rw [List.foldl_cons]
    rcases List.mem_cons.mp hx with rfl | hx
    · exact le_trans (le_max_right a x) (foldl_max_init t (max a x))
    · exact ih (max a b) hx

theorem le_listMax (xs : List ℚ) (x : ℚ) (hx : x ∈ xs) : x ≤ listMax xs := by
  cases xs with
  | nil => cases hx
  | cons y t =>
    rw [listMax]
    exact le_foldl_max (y :: t) _ x hx

theorem countP_notMem_split [DecidableEq κ] (t : List κ) (a : κ) (seen : List κ)
    (ha : a ∉ seen) :
    t.countP (fun x => decide (x ∉ seen)) =
      t.count a + t.countP (fun x => decide (x ∉ a :: seen)) := by
  induction t with
  | nil => simp
  | cons y t ih =>
    rw [List.countP_cons, List.countP_cons, List.count_cons, ih]
    by_cases hya : y = a
    · have h1 : decide (y ∉ seen) = true := by subst hya; simp [ha]
      have h2 : decide (y ∉ a :: seen) = false := by subst hya; simp
      have h3 : (y == a) = true := by simp [hya]
      simp only [h1, h2, h3]
      simp
      omega
    · have h3 : (y == a) = false := by simp [hya]
      by_cases hys : y ∈ seen
      · have h1 : decide (y ∉ seen) = false := by simp [hys]
        have h2 : decide (y ∉ a :: seen) = false := by
          simp [List.mem_cons, hys]
        simp only [h1, h2, h3]
        simp
      · have h1 : decide (y ∉ seen) = true := by simp [hys]
        have h2 : decide (y ∉ a :: seen) = true := by
          simp [List.mem_cons, hya, hys]
        simp only [h1, h2, h3]
        simp
        omega

theorem uniqAux_count_sum [DecidableEq κ] (seen : List κ) (l : List κ) :
    ((uniqAux seen l).map (fun k => l.count k)).sum =
      l.countP (fun x => decide (x ∉ seen)) := by
  induction l generalizing seen with
  | nil => simp [uniqAux]
  | cons a t ih =>
    by_cases ha : a ∈ seen
    · rw [show uniqAux seen (a :: t) = uniqAux seen t from if_pos ha]
      have hmap : (uniqAux seen t).map (fun k => (a :: t).count k) =
          (uniqAux seen t).map (fun k => t.count k) := by
        refine List.map_congr_left fun k hk => ?_
        have hk' := (uniqAux_mem seen t k).mp hk
        have hne : k ≠ a := fun h => hk'.2 (h ▸ ha)
        exact List.count_cons_of_ne hne t
      rw [hmap, ih seen, List.countP_cons]
      simp [ha]
    · rw [show uniqAux seen (a :: t) = a :: uniqAux (a :: seen) t from if_neg ha]
      have hmap : (uniqAux (a :: seen) t).map (fun k => (a :: t).count k) =
          (uniqAux (a :: seen) t).map (fun k => t.count k) := by
        refine List.map_congr_left fun k hk => ?_
        have hk' := (uniqAux_mem (a :: seen) t k).mp hk
        have hne : k ≠ a := fun h => hk'.2 (h ▸ List.mem_cons_self a seen)
        exact List.count_cons_of_ne hne t
      rw [List.map_cons, List.sum_cons, hmap, ih (a :: seen), List.countP_cons,
        List.count_cons_self, countP_notMem_split t a seen ha]
      simp [ha]
      omega

theorem uniqueFirst_count_sum [DecidableEq κ] (l : List κ) :
    ((uniqueFirst l).map (fun k => l.count k)).sum = l.length := by
  rw [uniqueFirst, uniqAux_count_sum]
  have : (fun x : κ => decide (x ∉ ([] : List κ))) = fun _ => true := by
    funext x
    simp
  rw [this, List.countP_true]

end BasicLemmas

section QuantileLemmas

theorem getD_irrel (s : List ℚ) (i : ℕ) (hi : i < s.length) (d : ℚ) :
    s.getD i d = s.getD i 0 := by
  rw [List.getD_eq_getElem?_getD, List.getD_eq_getElem?_getD,
    List.getElem?_eq_getElem hi]
  simp

theorem getD_mono (s : List ℚ) (hs : List.Sorted (· ≤ ·) s) (i j : ℕ)
    (hij : i ≤ j) (hj : j < s.length) : s.getD i 0 ≤ s.getD j 0 := by
  have hi : i < s.length := lt_of_le_of_lt hij hj
  rw [List.getD_eq_getElem?_getD, List.getD_eq_getElem?_getD,
    List.getElem?_eq_getElem hi, List.getElem?_eq_getElem hj]
  simp only [Option.getD_some]
  have := hs.rel_get_of_le (a := ⟨i, hi⟩) (b := ⟨j, hj⟩) (Fin.mk_le_mk.mpr hij)
  simpa using this

theorem getD_succ_ge (s : List ℚ) (hs : List.Sorted (· ≤ ·) s) (i : ℕ) :
    s.getD i 0 ≤ s.getD (i + 1) (s.getD i 0) := by
  by_cases h : i + 1 < s.length
  · rw [getD_irrel s (i + 1) h]
    exact getD_mono s hs i (i + 1) (Nat.le_succ i) h
  · have hlen : s.length ≤ i + 1 := Nat.le_of_not_lt h
    rw [List.getD_eq_getElem?_getD (n := i + 1), List.getElem?_eq_none hlen]
    simp

theorem interpSorted_ge_left (s : List ℚ) (hs : List.Sorted (· ≤ ·) s) (h : ℚ)
    (h0 : 0 ≤ h) (hlt : Nat.floor h < s.length) :
    s.getD (Nat.floor h) 0 ≤ interpSorted s h := by
  have hf0 : (0 : ℚ) ≤ h - (Nat.floor h : ℚ) := by
    have := Nat.floor_le h0
    linarith
  have hab := getD_succ_ge s hs (Nat.floor h)
  show s.getD (Nat.floor h) 0 ≤
    s.getD (Nat.floor h) 0 +
      (h - (Nat.floor h : ℚ)) *
        (s.getD (Nat.floor h + 1) (s.getD (Nat.floor h) 0) - s.getD (Nat.floor h) 0)
  nlinarith

theorem interpSorted_le_right (s : List ℚ) (hs : List.Sorted (· ≤ ·) s) (h : ℚ)
    (h0 : 0 ≤ h) (hlt : Nat.floor h < s.length) :
    interpSorted s h ≤ s.getD (Nat.floor h + 1) (s.getD (Nat.floor h) 0) := by
  have hf0 : (0 : ℚ) ≤ h - (Nat.floor h : ℚ) := by
    have := Nat.floor_le h0
    linarith
  have hf1 : h - (Nat.floor h : ℚ) ≤ 1 := by
    have := Nat.lt_floor_add_one h
    push_cast at this
    linarith
  have hab := getD_succ_ge s hs (Nat.floor h)
  show s.getD (Nat.floor h) 0 +
      (h - (Nat.floor h : ℚ)) *
        (s.getD (Nat.floor h + 1) (s.getD (Nat.floor h) 0) - s.getD (Nat.floor h) 0) ≤
    s.getD (Nat.floor h + 1) (s.getD (Nat.floor h) 0)
  nlinarith

theorem interpSorted_mono (s : List ℚ) (hs : List.Sorted (· ≤ ·) s)
    (h₁ h₂ : ℚ) (h0 : 0 ≤ h₁) (h12 : h₁ ≤ h₂)
    (htop : h₂ ≤ (s.length : ℚ) - 1) :
    interpSorted s h₁ ≤ interpSorted s h₂ := by
  have h02 : 0 ≤ h₂ := le_trans h0 h12
  have hi12 : Nat.floor h₁ ≤ Nat.floor h₂ := Nat.floor_mono h12
  have hi₂lt : Nat.floor h₂ < s.length := by
    have hfl : ((Nat.floor h₂ : ℕ) : ℚ) ≤ h₂ := Nat.floor_le h02
    have hq : ((Nat.floor h₂ : ℕ) : ℚ) + 1 ≤ (s.length : ℚ) := by linarith
    exact_mod_cast hq
  have hi₁lt : Nat.floor h₁ < s.length := lt_of_le_of_lt hi12 hi₂lt
  rcases eq_or_lt_of_le hi12 with heq | hlt
  · have hab := getD_succ_ge s hs (Nat.floor h₁)
    show s.getD (Nat.floor h₁) 0 +
        (h₁ - (Nat.floor h₁ : ℚ)) *
          (s.getD (Nat.floor h₁ + 1) (s.getD (Nat.floor h₁) 0) - s.getD (Nat.floor h₁) 0) ≤
      s.getD (Nat.floor h₂) 0 +
        (h₂ - (Nat.floor h₂ : ℚ)) *
          (s.getD (Nat.floor h₂ + 1) (s.getD (Nat.floor h₂) 0) - s.getD (Nat.floor h₂) 0)
    rw [← heq]
    nlinarith
  · calc interpSorted s h₁
        ≤ s.getD (Nat.floor h₁ + 1) (s.getD (Nat.floor h₁) 0) :=
          interpSorted_le_right s hs h₁ h0 hi₁lt
      _ = s.getD (Nat.floor h₁ + 1) 0 :=
          getD_irrel s (Nat.floor h₁ + 1) (lt_of_le_of_lt hlt hi₂lt) _
      _ ≤ s.getD (Nat.floor h₂) 0 := getD_mono s hs _ _ hlt hi₂lt
      _ ≤ interpSorted s h₂ := interpSorted_ge_left s hs h₂ h02 hi₂lt

theorem quantile_mono (xs : List ℚ) (hne : xs ≠ []) (p₁ p₂ : ℚ)
    (hp0 : 0 ≤ p₁) (hp12 : p₁ ≤ p₂) (hp1 : p₂ ≤ 1) :
    quantile xs p₁ ≤ quantile xs p₂ := by
  have hs : List.Sorted (· ≤ ·) (List.insertionSort (· ≤ ·) xs) :=
    List.sorted_insertionSort _ xs
  have hlen : (List.insertionSort (· ≤ ·) xs).length = xs.length :=
    (List.perm_insertionSort _ xs).length_eq
  have hn : 1 ≤ xs.length := List.length_pos_of_ne_nil hne
  have hnn : (0 : ℚ) ≤ (xs.length : ℚ) - 1 := by
    have : (1 : ℚ) ≤ (xs.length : ℚ) := by exact_mod_cast hn
    linarith
  refine interpSorted_mono _ hs _ _ (mul_nonneg hp0 hnn)
    (mul_le_mul_of_nonneg_right hp12 hnn) ?_
  rw [hlen]
  exact mul_le_of_le_one_left hnn hp1

theorem quantile_one (xs : List ℚ) (hne : xs ≠ []) :
    quantile xs 1 = (List.insertionSort (· ≤ ·) xs).getD (xs.length - 1) 0 := by
  have hn : 1 ≤ xs.length := List.length_pos_of_ne_nil hne
  have hcast : (xs.length : ℚ) - 1 = ((xs.length - 1 : ℕ) : ℚ) := by
    push_cast [hn]
    ring
  rw [quantile, one_mul, hcast, interpSorted]
  rw [Nat.floor_natCast]
  ring

theorem quantile_le_listMax (xs : List ℚ) (hne : xs ≠ []) (p : ℚ)
    (hp0 : 0 ≤ p) (hp1 : p ≤ 1) : quantile xs p ≤ listMax xs := by
  refine le_trans (quantile_mono xs hne p 1 hp0 hp1 le_rfl) ?_
  rw [quantile_one xs hne]
  have hn : 1 ≤ xs.length := List.length_pos_of_ne_nil hne
  have hlen : (List.insertionSort (· ≤ ·) xs).length = xs.length :=
    (List.perm_insertionSort _ xs).length_eq
  have hlt : xs.length - 1 < (List.insertionSort (· ≤ ·) xs).length := by
    rw [hlen]
    omega
  have hmem : (List.insertionSort (· ≤ ·) xs).getD (xs.length - 1) 0 ∈ xs := by
    rw [List.getD_eq_getElem?_getD, List.getElem?_eq_getElem hlt,
      Option.getD_some]
    exact (List.perm_insertionSort (· ≤ ·) xs).mem_iff.mp (List.getElem_mem hlt)
  exact le_listMax xs _ hmem

end QuantileLemmas

/-! ## `src/analyze_benchmark.py` -/

namespace Bench

/-- One raw row of `benchmark.csv` as read by `pd.read_csv` (line 29).
The group key `graph_type` is a string column, so it is either present or
missing; the declared numeric columns and `path_found` are raw cells. -/
structure RawRow where
  graph_type : Option String
  runtime_ms : Cell
  path_found : Cell
  nodes_visited : Cell
  edges_relaxed : Cell
  path_length : Cell
  total_weight : Cell
  memory_used_bytes : Cell
deriving DecidableEq, Repr

/-- One cleaned row, after `load_and_clean_data`: the runtime is a positive
number, the group key is present; the other numeric columns may still be
`NaN` (they are coerced but *not* in the `dropna` subset, lines 47-51). -/
structure Row where
  graph_type : String
  runtime_ms : ℚ
  path_found : Bool
  nodes_visited : Option ℚ
  edges_relaxed : Option ℚ
  path_length : Option ℚ
  total_weight : Option ℚ
  memory_used_bytes : Option ℚ
deriving DecidableEq, Repr

/-- The message of the `TypeError` pandas raises when `df['runtime_ms'] > 0`
(line 36) is evaluated on an object-dtype column containing text. -/
def typeErrMsg : String := "TypeError: comparison not supported between str and int"

/-- The predicate of the line-36 filter `df = df[df['runtime_ms'] > 0]` on a
numeric-dtype column: keeps exactly the rows whose runtime parsed to a
positive number (a `NaN` runtime compares `False` against `0`). -/
def keepRuntime (r : RawRow) : Bool :=
  match r.runtime_ms with
  | .num q => decide (0 < q)
  | _ => false

/-- The per-row effect of lines 42-51 on a row that survived the runtime
filter: `astype(bool)` on `path_found`, `to_numeric(errors='coerce')` on the
declared numeric columns, and the `dropna(subset=['runtime_ms',
'graph_type'])` — `runtime_ms` is already a positive number here, so only a
missing `graph_type` drops the row. -/
def toRow (r : RawRow) : Option Row :=
  match r.runtime_ms, r.graph_type with
  | Cell.num q, some g =>
      some { graph_type := g
             runtime_ms := q
             path_found := r.path_found.toBool
             nodes_visited := r.nodes_visited.toNum
             edges_relaxed := r.edges_relaxed.toNum
             path_length := r.path_length.toNum
             total_weight := r.total_weight.toNum
             memory_used_bytes := r.memory_used_bytes.toNum }
  | _, _ => none

/-- `load_and_clean_data` (lines 26-57): filter out non-positive runtimes and
report `removed = initial_count - len(df)` (lines 35-39), convert
`path_found` with `astype(bool)` (line 42), coerce the declared numeric
columns with `pd.to_numeric(errors='coerce')` (lines 45-48) and drop rows
with `NaN` in `runtime_ms` or `graph_type` (line 51).

If the `runtime_ms` column contains non-numeric text, `pd.read_csv` leaves
the column with object dtype and the *pre-coercion* comparison
`df['runtime_ms'] > 0` on line 36 raises a `TypeError`, aborting the run;
this is the `Except.error` branch. -/
def load_and_clean_data (raw : List RawRow) : Except String (List Row × Nat) :=
  if raw.any (fun r => r.runtime_ms.isTxt) then Except.error typeErrMsg
  else
    Except.ok
      ((raw.filter keepRuntime).filterMap toRow,
       raw.length - (raw.filter keepRuntime).length)

/-- `df['graph_type'].unique()` (line 65): distinct group keys in order of
first occurrence. -/
def keys (df : List Row) : List String := uniqueFirst (df.map (·.graph_type))

/-- `df[df['graph_type'] == graph_type]` (line 66). -/
def groupRows (df : List Row) (k : String) : List Row :=
  df.filter (fun r => r.graph_type == k)

/-- The `runtime_ms` column of one group. -/
def groupRuntimes (df : List Row) (k : String) : List ℚ :=
  (groupRows df k).map (·.runtime_ms)

/-- The `memory_used_bytes` column of one group. -/
def groupMems (df : List Row) (k : String) : List (Option ℚ) :=
  (groupRows df k).map (·.memory_used_bytes)

/-- One row of the per-group summary built in `compute_summary_stats`
(lines 68-85).  The two square-root-valued entries of the source dict,
`std_runtime_ms` and `coefficient_of_variation`, are kept as the separate
real-valued functions below (the source stores them in this same dict row);
everything else is rational, so the table itself stays computable. -/
structure Stat where
  graph_type : String
  num_queries : Nat
  avg_runtime_ms : ℚ
  median_runtime_ms : ℚ
  min_runtime_ms : ℚ
  max_runtime_ms : ℚ
  p95_runtime_ms : ℚ
  p99_runtime_ms : ℚ
  avg_nodes_visited : Option ℚ
  avg_edges_relaxed : Option ℚ
  avg_path_length : Option ℚ
  success_rate : ℚ
  avg_memory_MB : Option ℚ
  avg_runtime_per_MB : ℚ
deriving DecidableEq, Repr

/-- The summary row of one group (the dict literal of lines 68-85). -/
def mkStat (df : List Row) (k : String) : Stat :=
  { graph_type := k
    num_queries := (groupRows df k).length
    avg_runtime_ms := meanQ (groupRuntimes df k)
    median_runtime_ms := quantile (groupRuntimes df k) (1 / 2)
    min_runtime_ms := listMin (groupRuntimes df k)
    max_runtime_ms := listMax (groupRuntimes df k)
    p95_runtime_ms := quantile (groupRuntimes df k) (95 / 100)
    p99_runtime_ms := quantile (groupRuntimes df k) (99 / 100)
    avg_nodes_visited := meanO ((groupRows df k).map (·.nodes_visited))
    avg_edges_relaxed := meanO ((groupRows df k).map (·.edges_relaxed))
    avg_path_length := meanO ((groupRows df k).map (·.path_length))
    success_rate :=
      meanQ ((groupRows df k).map (fun r => if r.path_found then (1 : ℚ) else 0)) * 100
    avg_memory_MB := (meanO (groupMems df k)).map (fun m => m / (1024 * 1024))
    avg_runtime_per_MB :=
      match meanO (groupMems df k) with
      | some m =>
          if 0 < m then meanQ (groupRuntimes df k) / (m / (1024 * 1024)) else 0
      | none => 0 }

/-- `std_runtime_ms` of one group (line 73): pandas sample std, `NaN` for a
singleton group. -/
noncomputable def std_runtime_ms (df : List Row) (k : String) : Option ℝ :=
  stdO (groupRuntimes df k)

/-- `coefficient_of_variation` (line 78):
`(std / mean * 100) if mean > 0 else 0`, on the runtime list of a group. -/
noncomputable def coefficient_of_variation (xs : List ℚ) : Option ℝ :=
  if 0 < meanQ xs then (stdO xs).map (fun s => s / ((meanQ xs : ℚ) : ℝ) * 100)
  else some 0

/-- Modelled from the spec's words, for comparison with the code's
`coefficient_of_variation`: "coefficient of variation (std/mean × 100,
defined as 0 when mean is 0)". -/
noncomputable def cov_spec (xs : List ℚ) : Option ℝ :=
  if meanQ xs = 0 then some 0
  else (stdO xs).map (fun s => s / ((meanQ xs : ℚ) : ℝ) * 100)

/-- Ascending order on summary rows by `avg_runtime_ms`, the key of the
`sort_values('avg_runtime_ms')` call on line 90.  The embedding realises the
sort with a stable insertion sort; the source's numpy quicksort leaves the
relative order of equal keys unspecified. -/
def statLe (a b : Stat) : Prop := a.avg_runtime_ms ≤ b.avg_runtime_ms

instance : DecidableRel statLe :=
  fun a b => inferInstanceAs (Decidable (a.avg_runtime_ms ≤ b.avg_runtime_ms))

instance : IsTotal Stat statLe := ⟨fun a b => le_total a.avg_runtime_ms b.avg_runtime_ms⟩

instance : IsTrans Stat statLe := ⟨fun _ _ _ h1 h2 => le_trans h1 h2⟩

/-- `compute_summary_stats` (lines 59-92): one dict per distinct `graph_type`
(in `unique()` order), then `sort_values('avg_runtime_ms')`. -/
def compute_summary_stats (df : List Row) : List Stat :=
  List.insertionSort statLe ((keys df).map (mkStat df))

/-- `len(df[df['runtime_ms'] == 0])` (line 101), the zero-runtime check of
`detect_anomalies`. -/
def zero_runtime_count (df : List Row) : Nat :=
  (df.filter (fun r => decide (r.runtime_ms = 0))).length

/-- The findings the zero-runtime check of `detect_anomalies` appends
(lines 100-103): one message iff the count is positive (the source message
interpolates the count). -/
def zero_runtime_findings (df : List Row) : List String :=
  if 0 < zero_runtime_count df then ["Found queries with zero runtime"] else []

/-- `correlation_analysis` (lines 128-139): global Pearson correlations of
each covariate column against `runtime_ms`. -/
noncomputable def correlation_analysis (df : List Row) : List (String × Option ℝ) :=
  [("nodes_visited_vs_runtime",
      corrO (df.map (·.nodes_visited)) (df.map (fun r => some r.runtime_ms))),
   ("edges_relaxed_vs_runtime",
      corrO (df.map (·.edges_relaxed)) (df.map (fun r => some r.runtime_ms))),
   ("memory_vs_runtime",
      corrO (df.map (·.memory_used_bytes)) (df.map (fun r => some r.runtime_ms))),
   ("path_length_vs_runtime",
      corrO (df.map (·.path_length)) (df.map (fun r => some r.runtime_ms)))]

end Bench

/-! ## `src/analyze_iteration.py` -/

namespace Iter

/-- One raw row of `iteration.csv` as read by `pd.read_csv` (line 30). -/
structure RawRow where
  graph_type : Option String
  iteration_time_ns : Cell
  time_per_edge_ns : Cell
  degree : Cell
  category : Option String
deriving DecidableEq, Repr

/-- A row during the outlier-removal loop (lines 36-42): the loop runs on the
frame as loaded, before the `pd.to_numeric` coercion of lines 49-51, so
`iteration_time_ns` is a float column with possible `NaN`s and the other two
numeric columns are still raw cells. -/
structure PreRow where
  graph_type : Option String
  iteration_time_ns : Option ℚ
  time_per_edge_ns : Cell
  degree : Cell
  category : Option String
deriving DecidableEq, Repr

/-- One cleaned row, after `load_and_clean_data`: `iteration_time_ns`,
`graph_type` and `degree` are present (the `dropna` subset of line 54);
`time_per_edge_ns` may still be `NaN`. -/
structure Row where
  graph_type : String
  iteration_time_ns : ℚ
  time_per_edge_ns : Option ℚ
  degree : ℚ
  category : Option String
deriving DecidableEq, Repr

/-- The message of the `TypeError` pandas raises when line 39's `.mean()` or
line 42's `>` comparison runs on an object-dtype `iteration_time_ns` column
containing text. -/
def typeErrMsg : String := "TypeError: cannot reduce object column"

/-- The row selector `df['graph_type'] == key` for one key of `unique()`:
a missing key (pandas `NaN`) matches no row, because `NaN == NaN` is `False`
in pandas. -/
def sel (k : Option String) (g : Option String) : Bool :=
  match k with
  | none => false
  | some s => g == some s

/-- The `iteration_time_ns` column of the rows a key selects. -/
def groupTimes (df : List PreRow) (k : Option String) : List (Option ℚ) :=
  (df.filter (fun r => sel k r.graph_type)).map (·.iteration_time_ns)

/-- Whether one timing exceeds the `threshold = mean + 5 * std` of the series
`xs` (lines 39-42).  `mean`/`std` skip `NaN`s; with fewer than two valid
values the std — hence the threshold — is `NaN` and the `>` comparison is
`False`, as it also is for a `NaN` timing.  For a valid timing `t` with
`2 ≤ n` valid values, `t > mean + 5·√var` holds iff `mean < t` and
`25·var < (t − mean)²` (both sides of the first comparison are nonnegative,
so squaring is faithful); that decidable rational form is used here, and
`exceeds_iff_real` below proves it equivalent to the square-root form. -/
def exceeds (xs : List (Option ℚ)) : Option ℚ → Bool
  | none => false
  | some t =>
      if 2 ≤ (valids xs).length then
        decide (meanQ (valids xs) < t) &&
          decide (25 * varQ (valids xs) < (t - meanQ (valids xs)) ^ 2)
      else false

/-- One iteration of the cleaning loop (lines 37-42): for the current key
`g`, compute the threshold from the *current* frame's `g`-rows and drop the
`g`-rows above it:
`df = df[~((df['graph_type'] == g) & (df['iteration_time_ns'] > threshold))]`. -/
def stepRemove (g : Option String) (d : List PreRow) : List PreRow :=
  d.filter (fun r =>
    !(sel g r.graph_type &&
      exceeds ((d.filter (fun x => sel g x.graph_type)).map (·.iteration_time_ns))
        r.iteration_time_ns))

/-- The whole cleaning loop of lines 37-42, folded over the list of unique
keys — which `for graph_type in df['graph_type'].unique():` computes once,
from the original frame, before any row is removed. -/
def outlierClean (ks : List (Option String)) (df : List PreRow) : List PreRow :=
  ks.foldl (fun d g => stepRemove g d) df

/-- The frame as the cleaning loop sees it: `iteration_time_ns` as a float
column (read_csv parsed what it could; its `NaN`s are the empty cells), the
other numeric columns still uncoerced. -/
def preOf (raw : List RawRow) : List PreRow :=
  raw.map (fun r =>
    { graph_type := r.graph_type
      iteration_time_ns := r.iteration_time_ns.toNum
      time_per_edge_ns := r.time_per_edge_ns
      degree := r.degree
      category := r.category })

/-- The per-row effect of lines 49-54 on a surviving row:
`to_numeric(errors='coerce')` on `time_per_edge_ns` and `degree`, then
`dropna(subset=['iteration_time_ns', 'graph_type', 'degree'])`. -/
def toRow (r : PreRow) : Option Row :=
  match r.graph_type, r.iteration_time_ns, r.degree.toNum with
  | some g, some t, some d =>
      some { graph_type := g
             iteration_time_ns := t
             time_per_edge_ns := r.time_per_edge_ns.toNum
             degree := d
             category := r.category }
  | _, _, _ => none

/-- `load_and_clean_data` (lines 27-61): per-group outlier removal with
`removed = initial_count - len(df)` reported as "extreme outliers"
(lines 34-46), then `pd.to_numeric(errors='coerce')` on the three numeric
columns (lines 49-51) and `dropna` on `iteration_time_ns`, `graph_type`,
`degree` (line 54).  Note there is *no* non-positive-timing filter in this
pipeline.

If the `iteration_time_ns` column contains non-numeric text it has object
dtype, and the first loop iteration raises a `TypeError` (at line 39's
`.mean()` or line 42's `>` on the whole column), aborting the run. -/
def load_and_clean_data (raw : List RawRow) : Except String (List Row × Nat) :=
  if raw.any (fun r => r.iteration_time_ns.isTxt) then Except.error typeErrMsg
  else
    Except.ok
      ((outlierClean (uniqueFirst ((preOf raw).map (·.graph_type))) (preOf raw)).filterMap
         toRow,
       raw.length -
         (outlierClean (uniqueFirst ((preOf raw).map (·.graph_type))) (preOf raw)).length)

/-- `df['graph_type'].unique()` on the cleaned frame (line 69). -/
def keys (df : List Row) : List String := uniqueFirst (df.map (·.graph_type))

/-- `df[df['graph_type'] == graph_type]` (line 70). -/
def groupRows (df : List Row) (k : String) : List Row :=
  df.filter (fun r => r.graph_type == k)

/-- One row of the per-group summary built in `compute_summary_stats`
(lines 73-82).  `std_iteration_time_ns` (a square root) is the separate
real-valued function below; the per-category fields of lines 85-96 are not
referenced by any claim and are omitted from the embedding. -/
structure Stat where
  graph_type : String
  num_nodes_tested : Nat
  avg_iteration_time_ns : ℚ
  median_iteration_time_ns : ℚ
  avg_time_per_edge_ns : Option ℚ
  median_time_per_edge_ns : Option ℚ
  avg_degree : ℚ
deriving DecidableEq, Repr

/-- The summary row of one group (the dict literal of lines 73-82). -/
def mkStat (df : List Row) (k : String) : Stat :=
  { graph_type := k
    num_nodes_tested := (groupRows df k).length
    avg_iteration_time_ns := meanQ ((groupRows df k).map (·.iteration_time_ns))
    median_iteration_time_ns :=
      quantile ((groupRows df k).map (·.iteration_time_ns)) (1 / 2)
    avg_time_per_edge_ns := meanO ((groupRows df k).map (·.time_per_edge_ns))
    median_time_per_edge_ns :=
      quantileO ((groupRows df k).map (·.time_per_edge_ns)) (1 / 2)
    avg_degree := meanQ ((groupRows df k).map (·.degree)) }

/-- `std_iteration_time_ns` of one group (line 78). -/
noncomputable def std_iteration_time_ns (df : List Row) (k : String) : Option ℝ :=
  stdO ((groupRows df k).map (·.iteration_time_ns))

/-- Ascending order on summary rows by `avg_time_per_edge_ns` — the key of
the `sort_values('avg_time_per_edge_ns')` call on line 101 (note: *not* the
mean of the timing column), with `NaN` keys last (`na_position='last'`).
The embedding realises the sort with a stable insertion sort; the source's
numpy quicksort leaves the relative order of equal keys unspecified. -/
def statLe (a b : Stat) : Prop :=
  optLeB a.avg_time_per_edge_ns b.avg_time_per_edge_ns = true

instance : DecidableRel statLe :=
  fun a b =>
    inferInstanceAs (Decidable (optLeB a.avg_time_per_edge_ns b.avg_time_per_edge_ns = true))

theorem optLeB_total (a b : Option ℚ) : optLeB a b = true ∨ optLeB b a = true := by
  cases a with
  | none => cases b <;> simp [optLeB]
  | some x =>
    cases b with
    | none => simp [optLeB]
    | some y => simpa [optLeB] using le_total x y

theorem optLeB_trans (a b c : Option ℚ) (h1 : optLeB a b = true)
    (h2 : optLeB b c = true) : optLeB a c = true := by
  cases a <;> cases b <;> cases c <;> simp_all [optLeB]
  exact le_trans h1 h2

instance : IsTotal Stat statLe := ⟨fun _ _ => optLeB_total _ _⟩

instance : IsTrans Stat statLe := ⟨fun _ _ _ => optLeB_trans _ _ _⟩

/-- `compute_summary_stats` (lines 63-103): one dict per distinct
`graph_type` (in `unique()` order), then
`sort_values('avg_time_per_edge_ns')`. -/
def compute_summary_stats (df : List Row) : List Stat :=
  List.insertionSort statLe ((keys df).map (mkStat df))

/-- Per-group Pearson correlation of `degree` against `iteration_time_ns`
(line 141). -/
noncomputable def groupCorr (df : List Row) (k : String) : Option ℝ :=
  corrO ((groupRows df k).map (fun r => some r.degree))
    ((groupRows df k).map (fun r => some r.iteration_time_ns))

/-- `correlation_analysis` (lines 133-144): one correlation per group key. -/
noncomputable def correlation_analysis (df : List Row) : List (String × Option ℝ) :=
  (keys df).map (fun k => (k, groupCorr df k))

end Iter

/-! ## Loader lemmas -/

section LoaderLemmas

theorem length_sub_filter (p : α → Bool) (l : List α) :
    l.length - (l.filter p).length = l.countP (fun a => !p a) := by
  induction l with
  | nil => rfl
  | cons a t ih =>
    have hle := List.length_filter_le p t
    by_cases h : p a <;>
      simp [h, List.filter_cons, List.countP_cons, ← ih] <;> omega

theorem Bench.load_ok_inv (raw : List Bench.RawRow) (df : List Bench.Row) (c : Nat)
    (h : Bench.load_and_clean_data raw = Except.ok (df, c)) :
    df = (raw.filter Bench.keepRuntime).filterMap Bench.toRow ∧
      c = raw.length - (raw.filter Bench.keepRuntime).length := by
  by_cases ht : raw.any (fun r => r.runtime_ms.isTxt)
  · rw [Bench.load_and_clean_data, if_pos ht] at h
    cases h
  · rw [Bench.load_and_clean_data, if_neg ht] at h
    simp only [Except.ok.injEq, Prod.mk.injEq] at h
    exact ⟨h.1.symm, h.2.symm⟩

theorem Bench.toRow_eq_some (x : Bench.RawRow) (r : Bench.Row)
    (h : Bench.toRow x = some r) :
    ∃ q g, x.runtime_ms = Cell.num q ∧ x.graph_type = some g ∧
      r.runtime_ms = q ∧ r.graph_type = g := by
  unfold Bench.toRow at h
  split at h
  · next q g hq hg =>
      injection h with h
      exact ⟨q, g, hq, hg, by rw [← h], by rw [← h]⟩
  · cases h

theorem Bench.keepRuntime_pos (x : Bench.RawRow)
    (h : Bench.keepRuntime x = true) : ∃ q, x.runtime_ms = Cell.num q ∧ 0 < q := by
  unfold Bench.keepRuntime at h
  split at h
  · next q hq => exact ⟨q, hq, of_decide_eq_true h⟩
  · cases h

/-- Every row of the cleaned benchmark table has a positive runtime: shared by
several claims. -/
theorem Bench.load_runtime_pos (raw : List Bench.RawRow) (df : List Bench.Row)
    (c : Nat) (h : Bench.load_and_clean_data raw = Except.ok (df, c)) :
    ∀ r ∈ df, 0 < r.runtime_ms := by
  obtain ⟨hdf, -⟩ := Bench.load_ok_inv raw df c h
  subst hdf
  intro r hr
  obtain ⟨x, hx, hxr⟩ := List.mem_filterMap.mp hr
  obtain ⟨q, g, hq, hg, hrq, -⟩ := Bench.toRow_eq_some x r hxr
  obtain ⟨q', hq', hpos⟩ := Bench.keepRuntime_pos x (List.mem_filter.mp hx).2
  rw [hq] at hq'
  injection hq' with hq'
  rw [hrq, hq']
  exact hpos

end LoaderLemmas

/-! ## Outlier-removal lemmas (iteration pipeline) -/

section OutlierLemmas

theorem list_any_congr (l : List α) (p q : α → Bool) (h : ∀ x ∈ l, p x = q x) :
    l.any p = l.any q := by
  induction l with
  | nil => rfl
  | cons a t ih =>
    rw [List.any_cons, List.any_cons, h a (List.mem_cons_self a t),
      ih fun x hx => h x (List.mem_cons_of_mem a hx)]

theorem list_any_perm (l₁ l₂ : List α) (hp : l₁.Perm l₂) (p : α → Bool) :
    l₁.any p = l₂.any p := by
  cases h1 : l₁.any p <;> cases h2 : l₂.any p
  · rfl
  · exfalso
    obtain ⟨x, hx, hpx⟩ := List.any_eq_true.mp h2
    have := List.any_eq_true.mpr ⟨x, hp.mem_iff.mpr hx, hpx⟩
    rw [h1] at this
    cases this
  · exfalso
    obtain ⟨x, hx, hpx⟩ := List.any_eq_true.mp h1
    have := List.any_eq_true.mpr ⟨x, hp.mem_iff.mp hx, hpx⟩
    rw [h2] at this
    cases this
  · rfl

theorem Iter.sel_eq_of_both (k g r : Option String) (hk : Iter.sel k r = true)
    (hg : Iter.sel g r = true) : k = g := by
  unfold Iter.sel at hk hg
  cases k with
  | none => cases hk
  | some s =>
    cases g with
    | none => cases hg
    | some s' =>
      have h1 : r = some s := eq_of_beq hk
      have h2 : r = some s' := eq_of_beq hg
      rw [h1] at h2
      injection h2 with h2
      rw [h2]

theorem Iter.stepRemove_eq (g : Option String) (d : List Iter.PreRow) :
    Iter.stepRemove g d =
      d.filter (fun r =>
        !(Iter.sel g r.graph_type &&
          Iter.exceeds (Iter.groupTimes d g) r.iteration_time_ns)) := rfl

theorem Iter.stepRemove_preserves_other (g k : Option String) (hkg : k ≠ g)
    (d : List Iter.PreRow) :
    (Iter.stepRemove g d).filter (fun r => Iter.sel k r.graph_type) =
      d.filter (fun r => Iter.sel k r.graph_type) := by
  rw [Iter.stepRemove_eq, List.filter_filter]
  apply List.filter_congr
  intro r _
  by_cases hk : Iter.sel k r.graph_type = true
  · have hg : Iter.sel g r.graph_type = false := by
      by_cases hg' : Iter.sel g r.graph_type = true
      · exact absurd (Iter.sel_eq_of_both k g r.graph_type hk hg') hkg
      · simpa using hg'
    simp [hk, hg]
  · have hk' : Iter.sel k r.graph_type = false := by simpa using hk
    simp [hk']

theorem Iter.groupTimes_stepRemove (g k : Option String) (hkg : k ≠ g)
    (d : List Iter.PreRow) :
    Iter.groupTimes (Iter.stepRemove g d) k = Iter.groupTimes d k := by
  unfold Iter.groupTimes
  rw [Iter.stepRemove_preserves_other g k hkg d]

/-- The cleaning loop, characterised row by row: with pairwise-distinct keys,
a row is removed iff its own group's key is in the list and its timing
exceeds the threshold computed from that group's rows *in the original
frame* — each group's threshold depends on that group's original rows only. -/
theorem Iter.outlierClean_eq_filter (ks : List (Option String))
    (df : List Iter.PreRow) (hnd : ks.Nodup) :
    Iter.outlierClean ks df =
      df.filter (fun r =>
        !(ks.any (fun k => Iter.sel k r.graph_type &&
            Iter.exceeds (Iter.groupTimes df k) r.iteration_time_ns))) := by
  induction ks generalizing df with
  | nil => simp [Iter.outlierClean]
  | cons g rest ih =>
    obtain ⟨hg, hrest⟩ := List.nodup_cons.mp hnd
    have hstep : Iter.outlierClean (g :: rest) df =
        Iter.outlierClean rest (Iter.stepRemove g df) := rfl
    rw [hstep, ih (Iter.stepRemove g df) hrest]
    have hpt : ∀ r ∈ Iter.stepRemove g df,
        (!(rest.any (fun k => Iter.sel k r.graph_type &&
            Iter.exceeds (Iter.groupTimes (Iter.stepRemove g df) k)
              r.iteration_time_ns))) =
        (!(rest.any (fun k => Iter.sel k r.graph_type &&
            Iter.exceeds (Iter.groupTimes df k) r.iteration_time_ns))) := by
      intro r _
      congr 1
      apply list_any_congr
      intro k hk
      have hkg : k ≠ g := fun e => hg (e ▸ hk)
      rw [Iter.groupTimes_stepRemove g k hkg df]
    rw [List.filter_congr hpt, Iter.stepRemove_eq, List.filter_filter]
    apply List.filter_congr
    intro r _
    rw [List.any_cons]
    cases hhead : (Iter.sel g r.graph_type &&
        Iter.exceeds (Iter.groupTimes df g) r.iteration_time_ns) <;>
      cases htail : (rest.any (fun k => Iter.sel k r.graph_type &&
          Iter.exceeds (Iter.groupTimes df k) r.iteration_time_ns)) <;>
        simp [hhead, htail]

end OutlierLemmas

section ExceedsBridge

/-- The decidable rational threshold test of `Iter.exceeds` coincides with the
source's `t > mean + 5 * std` read over the reals. -/
theorem Iter.exceeds_iff_real (xs : List (Option ℚ)) (t : ℚ) :
    Iter.exceeds xs (some t) = true ↔
      2 ≤ (valids xs).length ∧
        ((meanQ (valids xs) : ℚ) : ℝ) +
            5 * Real.sqrt ((varQ (valids xs) : ℚ) : ℝ) < ((t : ℚ) : ℝ) := by
  have hred : Iter.exceeds xs (some t) =
      (if 2 ≤ (valids xs).length then
        decide (meanQ (valids xs) < t) &&
          decide (25 * varQ (valids xs) < (t - meanQ (valids xs)) ^ 2)
      else false) := rfl
  rw [hred]
  by_cases hn : 2 ≤ (valids xs).length
  · rw [if_pos hn]
    have hv : (0 : ℝ) ≤ ((varQ (valids xs) : ℚ) : ℝ) := by
      exact_mod_cast varQ_nonneg (valids xs)
    constructor
    · intro h
      obtain ⟨h1, h2⟩ := Bool.and_eq_true_iff.mp h
      have hm : meanQ (valids xs) < t := of_decide_eq_true h1
      have hq : 25 * varQ (valids xs) < (t - meanQ (valids xs)) ^ 2 :=
        of_decide_eq_true h2
      refine ⟨hn, ?_⟩
      have hmR : ((meanQ (valids xs) : ℚ) : ℝ) < ((t : ℚ) : ℝ) := by exact_mod_cast hm
      have hqR : 25 * ((varQ (valids xs) : ℚ) : ℝ) <
          (((t : ℚ) : ℝ) - ((meanQ (valids xs) : ℚ) : ℝ)) ^ 2 := by
        exact_mod_cast hq
      have hpos : (0 : ℝ) < ((t : ℚ) : ℝ) - ((meanQ (valids xs) : ℚ) : ℝ) := by
        linarith
      have hsq : Real.sqrt ((varQ (valids xs) : ℚ) : ℝ) <
          (((t : ℚ) : ℝ) - ((meanQ (valids xs) : ℚ) : ℝ)) / 5 := by
        rw [Real.sqrt_lt' (by positivity)]
        rw [div_pow]
        rw [lt_div_iff (by norm_num : (0:ℝ) < 5 ^ 2)]
        nlinarith
      nlinarith [Real.sqrt_nonneg ((varQ (valids xs) : ℚ) : ℝ)]
    · rintro ⟨-, h⟩
      have hs0 : (0 : ℝ) ≤ Real.sqrt ((varQ (valids xs) : ℚ) : ℝ) := Real.sqrt_nonneg _
      have hmR : ((meanQ (valids xs) : ℚ) : ℝ) < ((t : ℚ) : ℝ) := by nlinarith
      have hsq : Real.sqrt ((varQ (valids xs) : ℚ) : ℝ) <
          (((t : ℚ) : ℝ) - ((meanQ (valids xs) : ℚ) : ℝ)) / 5 := by
        linarith
      have hq : 25 * ((varQ (valids xs) : ℚ) : ℝ) <
          (((t : ℚ) : ℝ) - ((meanQ (valids xs) : ℚ) : ℝ)) ^ 2 := by
        rw [Real.sqrt_lt' (by linarith)] at hsq
        rw [div_pow] at hsq
        rw [lt_div_iff (by norm_num : (0:ℝ) < 5 ^ 2)] at hsq
        nlinarith
      refine Bool.and_eq_true_iff.mpr ⟨decide_eq_true ?_, decide_eq_true ?_⟩
      · exact_mod_cast hmR
      · exact_mod_cast hq
  · rw [if_neg hn]
    simp only [Bool.false_eq_true, false_iff]
    rintro ⟨h2, -⟩
    exact hn h2

end ExceedsBridge

/-! ## Summary-table lemmas -/

section SummaryLemmas

theorem Bench.summary_perm (df : List Bench.Row) :
    (Bench.compute_summary_stats df).Perm ((Bench.keys df).map (Bench.mkStat df)) :=
  List.perm_insertionSort _ _

theorem Bench.mem_summary (df : List Bench.Row) (st : Bench.Stat) :
    st ∈ Bench.compute_summary_stats df ↔
      ∃ k ∈ Bench.keys df, st = Bench.mkStat df k := by
  rw [(Bench.summary_perm df).mem_iff, List.mem_map]
  constructor
  · rintro ⟨k, hk, rfl⟩
    exact ⟨k, hk, rfl⟩
  · rintro ⟨k, hk, rfl⟩
    exact ⟨k, hk, rfl⟩

theorem Bench.groupRows_ne_nil (df : List Bench.Row) (k : String)
    (hk : k ∈ Bench.keys df) : Bench.groupRows df k ≠ [] := by
  rw [Bench.keys, mem_uniqueFirst] at hk
  obtain ⟨r, hr, hrk⟩ := List.mem_map.mp hk
  intro hnil
  have hmem : r ∈ Bench.groupRows df k := by
    refine List.mem_filter.mpr ⟨hr, ?_⟩
    rw [hrk]
    exact beq_self_eq_true k
  rw [hnil] at hmem
  cases hmem

theorem Bench.groupRuntimes_ne_nil (df : List Bench.Row) (k : String)
    (hk : k ∈ Bench.keys df) : Bench.groupRuntimes df k ≠ [] := by
  rw [Bench.groupRuntimes]
  intro h
  exact Bench.groupRows_ne_nil df k hk (List.map_eq_nil_iff.mp h)

theorem Bench.mem_groupRuntimes_pos (df : List Bench.Row)
    (hpos : ∀ r ∈ df, 0 < r.runtime_ms) (k : String) :
    ∀ x ∈ Bench.groupRuntimes df k, 0 < x := by
  intro x hx
  obtain ⟨r, hr, rfl⟩ := List.mem_map.mp hx
  exact hpos r (List.mem_filter.mp hr).1

theorem Bench.stats_keys (df : List Bench.Row) :
    ((Bench.keys df).map (Bench.mkStat df)).map (fun st => st.graph_type) =
      Bench.keys df := by
  rw [List.map_map]
  exact List.map_id _

theorem Iter.iter_summary_perm (df : List Iter.Row) :
    (Iter.compute_summary_stats df).Perm ((Iter.keys df).map (Iter.mkStat df)) :=
  List.perm_insertionSort _ _

theorem Iter.iter_mem_summary (df : List Iter.Row) (st : Iter.Stat) :
    st ∈ Iter.compute_summary_stats df ↔
      ∃ k ∈ Iter.keys df, st = Iter.mkStat df k := by
  rw [(Iter.iter_summary_perm df).mem_iff, List.mem_map]
  constructor
  · rintro ⟨k, hk, rfl⟩
    exact ⟨k, hk, rfl⟩
  · rintro ⟨k, hk, rfl⟩
    exact ⟨k, hk, rfl⟩

theorem Iter.iter_stats_keys (df : List Iter.Row) :
    ((Iter.keys df).map (Iter.mkStat df)).map (fun st => st.graph_type) =
      Iter.keys df := by
  rw [List.map_map]
  exact List.map_id _

end SummaryLemmas

section CountLemmas

theorem Bench.group_length_count (df : List Bench.Row) (k : String) :
    (Bench.groupRows df k).length = (df.map (fun r => r.graph_type)).count k := by
  rw [Bench.groupRows, ← List.countP_eq_length_filter, List.count_eq_countP,
    List.countP_map]
  rfl

theorem Bench.sum_counts (df : List Bench.Row) :
    (((Bench.keys df).map (Bench.mkStat df)).map (fun st => st.num_queries)).sum =
      df.length := by
  rw [List.map_map]
  have h1 : ((fun st => st.num_queries) ∘ Bench.mkStat df) =
      fun k => (Bench.groupRows df k).length := rfl
  rw [h1]
  have h2 : ((Bench.keys df).map (fun k => (Bench.groupRows df k).length)) =
      (Bench.keys df).map (fun k => (df.map (fun r => r.graph_type)).count k) :=
    List.map_congr_left fun k _ => Bench.group_length_count df k
  rw [h2, Bench.keys, uniqueFirst_count_sum, List.length_map]

theorem Iter.iter_group_length_count (df : List Iter.Row) (k : String) :
    (Iter.groupRows df k).length = (df.map (fun r => r.graph_type)).count k := by
  rw [Iter.groupRows, ← List.countP_eq_length_filter, List.count_eq_countP,
    List.countP_map]
  rfl

theorem Iter.iter_sum_counts (df : List Iter.Row) :
    (((Iter.keys df).map (Iter.mkStat df)).map (fun st => st.num_nodes_tested)).sum =
      df.length := by
  rw [List.map_map]
  have h1 : ((fun st => st.num_nodes_tested) ∘ Iter.mkStat df) =
      fun k => (Iter.groupRows df k).length := rfl
  rw [h1]
  have h2 : ((Iter.keys df).map (fun k => (Iter.groupRows df k).length)) =
      (Iter.keys df).map (fun k => (df.map (fun r => r.graph_type)).count k) :=
    List.map_congr_left fun k _ => Iter.iter_group_length_count df k
  rw [h2, Iter.keys, uniqueFirst_count_sum, List.length_map]

end CountLemmas

/-! ## Claims -/

/-- **C5.** For every input, each pipeline's summary has exactly one row per
distinct group key of the cleaned table, each row's count equals the number
of cleaned rows sharing that key, and the per-group counts sum to the number
of cleaned rows. -/
theorem C5_summary_partitions_cleaned_rows (dfB : List Bench.Row) (dfI : List Iter.Row) :
    (((Bench.compute_summary_stats dfB).map (fun st => st.graph_type)).Nodup ∧
      (∀ k, k ∈ (Bench.compute_summary_stats dfB).map (fun st => st.graph_type) ↔
        k ∈ dfB.map (fun r => r.graph_type)) ∧
      (∀ st ∈ Bench.compute_summary_stats dfB,
        st.num_queries =
          (dfB.filter (fun r => r.graph_type == st.graph_type)).length) ∧
      ((Bench.compute_summary_stats dfB).map (fun st => st.num_queries)).sum =
        dfB.length) ∧
    (((Iter.compute_summary_stats dfI).map (fun st => st.graph_type)).Nodup ∧
      (∀ k, k ∈ (Iter.compute_summary_stats dfI).map (fun st => st.graph_type) ↔
        k ∈ dfI.map (fun r => r.graph_type)) ∧
      (∀ st ∈ Iter.compute_summary_stats dfI,
        st.num_nodes_tested =
          (dfI.filter (fun r => r.graph_type == st.graph_type)).length) ∧
      ((Iter.compute_summary_stats dfI).map (fun st => st.num_nodes_tested)).sum =
        dfI.length) := by
  have hBperm : ((Bench.compute_summary_stats dfB).map (fun st => st.graph_type)).Perm
      (Bench.keys dfB) := by
    have h := (Bench.summary_perm dfB).map (fun st => st.graph_type)
    rwa [Bench.stats_keys] at h
  have hIperm : ((Iter.compute_summary_stats dfI).map (fun st => st.graph_type)).Perm
      (Iter.keys dfI) := by
    have h := (Iter.iter_summary_perm dfI).map (fun st => st.graph_type)
    rwa [Iter.iter_stats_keys] at h
  refine ⟨⟨?_, ?_, ?_, ?_⟩, ?_, ?_, ?_, ?_⟩
  · exact hBperm.symm.nodup (nodup_uniqueFirst _)
  · intro k
    rw [hBperm.mem_iff, Bench.keys, mem_uniqueFirst]
  · intro st hst
    obtain ⟨k, -, rfl⟩ := (Bench.mem_summary dfB st).mp hst
    rfl
  · rw [((Bench.summary_perm dfB).map (fun st => st.num_queries)).sum_eq]
    exact Bench.sum_counts dfB
  · exact hIperm.symm.nodup (nodup_uniqueFirst _)
  · intro k
    rw [hIperm.mem_iff, Iter.keys, mem_uniqueFirst]
  · intro st hst
    obtain ⟨k, -, rfl⟩ := (Iter.iter_mem_summary dfI st).mp hst
    rfl
  · rw [((Iter.iter_summary_perm dfI).map (fun st => st.num_nodes_tested)).sum_eq]
    exact Iter.iter_sum_counts dfI

/-- **C6.** For every input and every group of the benchmark summary, the
percentile statistics (linear interpolation) satisfy
median ≤ p95 ≤ p99 ≤ max. -/
theorem C6_percentiles_monotone (df : List Bench.Row) (st : Bench.Stat)
    (hst : st ∈ Bench.compute_summary_stats df) :
    st.median_runtime_ms ≤ st.p95_runtime_ms ∧
      st.p95_runtime_ms ≤ st.p99_runtime_ms ∧
      st.p99_runtime_ms ≤ st.max_runtime_ms := by
  obtain ⟨k, hk, rfl⟩ := (Bench.mem_summary df st).mp hst
  have hne := Bench.groupRuntimes_ne_nil df k hk
  refine ⟨?_, ?_, ?_⟩
  · exact quantile_mono _ hne (1 / 2) (95 / 100) (by norm_num) (by norm_num)
      (by norm_num)
  · exact quantile_mono _ hne (95 / 100) (99 / 100) (by norm_num) (by norm_num)
      (by norm_num)
  · exact quantile_le_listMax _ hne (99 / 100) (by norm_num) (by norm_num)

/-- **C3 (amended).** For every input, the benchmark summary is sorted
ascending by mean timing (`avg_runtime_ms`), and the iteration summary is
sorted ascending by mean time per edge (`avg_time_per_edge_ns`, `NaN` keys
last) — *not* by mean timing; the relative order of groups with equal sort
keys is unspecified in the source (numpy quicksort), and is the stable
first-occurrence order in this embedding's insertion sort. -/
theorem C3_summary_sort_order (dfB : List Bench.Row) (dfI : List Iter.Row) :
    List.Pairwise (fun a b => a.avg_runtime_ms ≤ b.avg_runtime_ms)
      (Bench.compute_summary_stats dfB) ∧
    List.Pairwise
      (fun a b => optLeB a.avg_time_per_edge_ns b.avg_time_per_edge_ns = true)
      (Iter.compute_summary_stats dfI) := by
  constructor
  · exact List.sorted_insertionSort Bench.statLe ((Bench.keys dfB).map (Bench.mkStat dfB))
  · exact List.sorted_insertionSort Iter.statLe ((Iter.keys dfI).map (Iter.mkStat dfI))

section CorrelationLemmas

theorem pairsOf_mem_valids (xs ys : List (Option ℚ)) (x y : ℚ)
    (h : (x, y) ∈ pairsOf xs ys) : x ∈ valids xs ∧ y ∈ valids ys := by
  obtain ⟨ab, hab, hmat⟩ := List.mem_filterMap.mp h
  obtain ⟨a, b⟩ := ab
  cases a with
  | none => cases hmat
  | some x' =>
    cases b with
    | none => cases hmat
    | some y' =>
      injection hmat with hmat
      have hx : x' = x := congrArg Prod.fst hmat
      have hy : y' = y := congrArg Prod.snd hmat
      have hz := List.of_mem_zip hab
      constructor
      · refine List.mem_filterMap.mpr ⟨some x, ?_, rfl⟩
        rw [← hx]
        exact hz.1
      · refine List.mem_filterMap.mpr ⟨some y, ?_, rfl⟩
        rw [← hy]
        exact hz.2

theorem pairsOf_length_le_left (xs ys : List (Option ℚ)) :
    (pairsOf xs ys).length ≤ xs.length := by
  calc (pairsOf xs ys).length ≤ (xs.zip ys).length := List.length_filterMap_le _ _
    _ ≤ xs.length := by rw [List.length_zip]; omega

theorem pairsOf_length_le_right (xs ys : List (Option ℚ)) :
    (pairsOf xs ys).length ≤ ys.length := by
  calc (pairsOf xs ys).length ≤ (xs.zip ys).length := List.length_filterMap_le _ _
    _ ≤ ys.length := by rw [List.length_zip]; omega

theorem varO_inv (xs : List (Option ℚ)) (h : varO xs = some 0) :
    2 ≤ (valids xs).length ∧ varQ (valids xs) = 0 := by
  by_cases h2 : 2 ≤ (valids xs).length
  · rw [varO, if_pos h2] at h
    injection h with h
    exact ⟨h2, h⟩
  · rw [varO, if_neg h2] at h
    cases h

theorem corrO_none_left (xs ys : List (Option ℚ)) (h : varO xs = some 0) :
    corrO xs ys = none := by
  rw [corrO]
  by_cases hlen : (pairsOf xs ys).length < 2
  · rw [if_pos hlen]
  · rw [if_neg hlen, if_pos]
    left
    obtain ⟨h2, hv⟩ := varO_inv xs h
    have hall := allEq_of_varQ_zero (valids xs) h2 hv
    refine varQ_zero_of_allEq _ (meanQ (valids xs)) ?_
    intro z hz
    obtain ⟨⟨x, y⟩, hp, rfl⟩ := List.mem_map.mp hz
    exact hall x (pairsOf_mem_valids xs ys x y hp).1

theorem corrO_none_right (xs ys : List (Option ℚ)) (h : varO ys = some 0) :
    corrO xs ys = none := by
  rw [corrO]
  by_cases hlen : (pairsOf xs ys).length < 2
  · rw [if_pos hlen]
  · rw [if_neg hlen, if_pos]
    right
    obtain ⟨h2, hv⟩ := varO_inv ys h
    have hall := allEq_of_varQ_zero (valids ys) h2 hv
    refine varQ_zero_of_allEq _ (meanQ (valids ys)) ?_
    intro z hz
    obtain ⟨⟨x, y⟩, hp, rfl⟩ := List.mem_map.mp hz
    exact hall y (pairsOf_mem_valids xs ys x y hp).2

theorem corrO_none_short (xs ys : List (Option ℚ))
    (h : xs.length < 2 ∨ ys.length < 2) : corrO xs ys = none := by
  rw [corrO, if_pos]
  rcases h with h | h
  · exact lt_of_le_of_lt (pairsOf_length_le_left xs ys) h
  · exact lt_of_le_of_lt (pairsOf_length_le_right xs ys) h

theorem valids_map_some (l : List ℚ) : valids (l.map some) = l := by
  induction l with
  | nil => rfl
  | cons a t ih =>
    show a :: valids (t.map some) = a :: t
    rw [ih]

end CorrelationLemmas

/-- **C4.** The correlation module returns `NaN` (never `0`, and it is a
total function, never an exception) whenever either input series has zero
variance; in particular, a group of the iteration pipeline whose timing
values are all equal yields a `NaN` correlation against its covariate. -/
theorem C4_correlation_nan_on_zero_variance (xs ys : List (Option ℚ))
    (df : List Iter.Row) (k : String) (c : ℚ)
    (hvar : varO xs = some 0 ∨ varO ys = some 0)
    (hconst : ∀ r ∈ df, r.graph_type = k → r.iteration_time_ns = c) :
    (corrO xs ys = none ∧ corrO xs ys ≠ some 0) ∧
      Iter.groupCorr df k = none := by
  constructor
  · have hnone : corrO xs ys = none := by
      rcases hvar with h | h
      · exact corrO_none_left xs ys h
      · exact corrO_none_right xs ys h
    refine ⟨hnone, ?_⟩
    rw [hnone]
    exact fun h => Option.noConfusion h
  · rw [Iter.groupCorr]
    have hmap : (Iter.groupRows df k).map (fun r => some r.iteration_time_ns) =
        ((Iter.groupRows df k).map (fun r => r.iteration_time_ns)).map some := by
      rw [List.map_map]
      rfl
    have hvalids :
        valids (((Iter.groupRows df k).map (fun r => r.iteration_time_ns)).map some) =
          (Iter.groupRows df k).map (fun r => r.iteration_time_ns) :=
      valids_map_some _
    have htimes : ∀ z ∈ (Iter.groupRows df k).map (fun r => r.iteration_time_ns),
        z = c := by
      intro z hz
      obtain ⟨r, hr, rfl⟩ := List.mem_map.mp hz
      have hm := List.mem_filter.mp hr
      exact hconst r hm.1 (by simpa using hm.2)
    by_cases hlen : 2 ≤ ((Iter.groupRows df k).map (fun r => r.iteration_time_ns)).length
    · apply corrO_none_right
      rw [hmap, varO, hvalids, if_pos hlen,
        varQ_zero_of_allEq ((Iter.groupRows df k).map (fun r => r.iteration_time_ns))
          c htimes]
    · apply corrO_none_short
      right
      rw [hmap, List.length_map, List.length_map]
      rw [List.length_map] at hlen
      omega

/-- **C2 (amended).** For every group of the benchmark summary: on cleaned
data (all runtimes positive) the code's coefficient of variation agrees with
the spec's formula `std/mean × 100`; it is `0` whenever the group mean is
`0`; and for every group with at least two observations it is a nonnegative
number.  (For a singleton group the sample std — hence the CoV — is `NaN`;
see the counterexample.) -/
theorem C2_coefficient_of_variation_properties (df : List Bench.Row) (k : String)
    (hk : k ∈ Bench.keys df) :
    ((∀ r ∈ df, 0 < r.runtime_ms) →
      Bench.coefficient_of_variation (Bench.groupRuntimes df k) =
        Bench.cov_spec (Bench.groupRuntimes df k)) ∧
    (meanQ (Bench.groupRuntimes df k) = 0 →
      Bench.coefficient_of_variation (Bench.groupRuntimes df k) = some 0) ∧
    (2 ≤ (Bench.groupRuntimes df k).length →
      ∃ c : ℝ, Bench.coefficient_of_variation (Bench.groupRuntimes df k) = some c ∧
        0 ≤ c) := by
  refine ⟨?_, ?_, ?_⟩
  · intro hpos
    have hne := Bench.groupRuntimes_ne_nil df k hk
    have hgt : 0 < meanQ (Bench.groupRuntimes df k) :=
      meanQ_pos _ hne (Bench.mem_groupRuntimes_pos df hpos k)
    rw [Bench.coefficient_of_variation, Bench.cov_spec, if_pos hgt,
      if_neg (ne_of_gt hgt)]
  · intro h0
    rw [Bench.coefficient_of_variation, if_neg]
    rw [h0]
    exact lt_irrefl 0
  · intro h2
    by_cases hm : 0 < meanQ (Bench.groupRuntimes df k)
    · refine ⟨Real.sqrt ((varQ (Bench.groupRuntimes df k) : ℚ) : ℝ) /
          ((meanQ (Bench.groupRuntimes df k) : ℚ) : ℝ) * 100, ?_, ?_⟩
      · rw [Bench.coefficient_of_variation, if_pos hm, stdO, if_pos h2,
          Option.map_some']
      · have hmR : (0 : ℝ) < ((meanQ (Bench.groupRuntimes df k) : ℚ) : ℝ) := by
          exact_mod_cast hm
        have := Real.sqrt_nonneg ((varQ (Bench.groupRuntimes df k) : ℚ) : ℝ)
        positivity
    · exact ⟨0, by rw [Bench.coefficient_of_variation, if_neg hm], le_refl 0⟩

/-- **C8.** For every group of the benchmark summary, the derived efficiency
ratio (mean runtime per MB of memory) is `0` when the group's mean memory is
`0`; it is a total function of the table, so the division never raises. -/
theorem C8_runtime_per_MB_zero_when_memory_zero (df : List Bench.Row)
    (st : Bench.Stat) (hst : st ∈ Bench.compute_summary_stats df)
    (hmem : meanO (Bench.groupMems df st.graph_type) = some 0) :
    st.avg_runtime_per_MB = 0 := by
  obtain ⟨k, -, rfl⟩ := (Bench.mem_summary df st).mp hst
  have hk : (Bench.mkStat df k).graph_type = k := rfl
  rw [hk] at hmem
  have hfield : (Bench.mkStat df k).avg_runtime_per_MB =
      (match meanO (Bench.groupMems df k) with
       | some m =>
           if 0 < m then meanQ (Bench.groupRuntimes df k) / (m / (1024 * 1024))
           else 0
       | none => 0) := rfl
  rw [hfield, hmem]
  exact if_neg (lt_irrefl 0)

/-- **C1 (amended).** The *benchmark* loader drops, before any statistics,
every row whose timing is not a positive number (timing ≤ 0, or missing) and
reports exactly the number of rows so removed; the cleaned table it passes
downstream contains only positive timings.  (The iteration pipeline's loader
has no such filter — see the counterexample.) -/
theorem C1_benchmark_loader_drops_nonpositive (raw : List Bench.RawRow)
    (df : List Bench.Row) (c : Nat)
    (h : Bench.load_and_clean_data raw = Except.ok (df, c)) :
    (∀ r ∈ df, 0 < r.runtime_ms) ∧
      c = raw.countP (fun row => !Bench.keepRuntime row) := by
  refine ⟨Bench.load_runtime_pos raw df c h, ?_⟩
  obtain ⟨-, hc⟩ := Bench.load_ok_inv raw df c h
  rw [hc, length_sub_filter]

/-- **C9.** On any table the benchmark loader accepts, the anomaly detector's
zero-timing check counts zero rows, so the zero-timing finding is never
emitted: the check is reachable only on pre-filter data. -/
theorem C9_zero_timing_check_never_fires (raw : List Bench.RawRow)
    (df : List Bench.Row) (c : Nat)
    (h : Bench.load_and_clean_data raw = Except.ok (df, c)) :
    Bench.zero_runtime_count df = 0 ∧ Bench.zero_runtime_findings df = [] := by
  have hpos := Bench.load_runtime_pos raw df c h
  have hcount : Bench.zero_runtime_count df = 0 := by
    rw [Bench.zero_runtime_count]
    have hnil : df.filter (fun r => decide (r.runtime_ms = 0)) = [] := by
      rw [List.filter_eq_nil_iff]
      intro r hr
      simp only [decide_eq_true_eq]
      exact ne_of_gt (hpos r hr)
    rw [hnil]
    rfl
  refine ⟨hcount, ?_⟩
  rw [Bench.zero_runtime_findings, hcount]
  exact if_neg (lt_irrefl 0)

/-- **C10.** The iteration loader's per-group outlier removal is
group-independent: with pairwise-distinct keys (as `unique()` yields), the
cleaned frame equals a one-pass filter in which each row is tested against
the threshold computed from its *own group's rows in the original frame*,
and the outcome is identical for any processing order of the group keys. -/
theorem C10_outlier_removal_group_independent (df : List Iter.PreRow)
    (ks₁ ks₂ : List (Option String)) (hnd : ks₁.Nodup) (hperm : ks₁.Perm ks₂) :
    Iter.outlierClean ks₁ df =
      df.filter (fun r =>
        !(ks₁.any (fun k => Iter.sel k r.graph_type &&
            Iter.exceeds (Iter.groupTimes df k) r.iteration_time_ns))) ∧
      Iter.outlierClean ks₁ df = Iter.outlierClean ks₂ df := by
  have h1 := Iter.outlierClean_eq_filter ks₁ df hnd
  have h2 := Iter.outlierClean_eq_filter ks₂ df (hperm.nodup hnd)
  refine ⟨h1, ?_⟩
  rw [h1, h2]
  apply List.filter_congr
  intro r _
  congr 1
  exact list_any_perm ks₁ ks₂ hperm _

/-! ## Concrete tables for counterexamples and witnesses -/

/-- A benchmark CSV with one valid row and one negative-runtime row. -/
def wBRaw : List Bench.RawRow :=
  [{ graph_type := some "A", runtime_ms := Cell.num 5, path_found := Cell.num 1,
     nodes_visited := Cell.na, edges_relaxed := Cell.na, path_length := Cell.na,
     total_weight := Cell.na, memory_used_bytes := Cell.num 1048576 },
   { graph_type := some "A", runtime_ms := Cell.num (-3), path_found := Cell.num 1,
     nodes_visited := Cell.na, edges_relaxed := Cell.na, path_length := Cell.na,
     total_weight := Cell.na, memory_used_bytes := Cell.na }]

/-- The cleaned table the benchmark loader produces from `wBRaw`. -/
def wBdf1 : List Bench.Row :=
  [{ graph_type := "A", runtime_ms := 5, path_found := true,
     nodes_visited := none, edges_relaxed := none, path_length := none,
     total_weight := none, memory_used_bytes := some 1048576 }]

/-- A cleaned benchmark table with one two-row group. -/
def wBdf2 : List Bench.Row :=
  [{ graph_type := "A", runtime_ms := 10, path_found := true,
     nodes_visited := none, edges_relaxed := none, path_length := none,
     total_weight := none, memory_used_bytes := some 0 },
   { graph_type := "A", runtime_ms := 20, path_found := true,
     nodes_visited := none, edges_relaxed := none, path_length := none,
     total_weight := none, memory_used_bytes := some 0 }]

/-- A cleaned benchmark table whose single group has a single row. -/
def cex2df : List Bench.Row :=
  [{ graph_type := "A", runtime_ms := 5, path_found := true,
     nodes_visited := none, edges_relaxed := none, path_length := none,
     total_weight := none, memory_used_bytes := none }]

/-- An iteration CSV with a negative timing: group A has timings −5 and 5. -/
def cex1raw : List Iter.RawRow :=
  [{ graph_type := some "A", iteration_time_ns := Cell.num (-5),
     time_per_edge_ns := Cell.num 1, degree := Cell.num 1, category := none },
   { graph_type := some "A", iteration_time_ns := Cell.num 5,
     time_per_edge_ns := Cell.num 1, degree := Cell.num 1, category := none }]

/-- A cleaned iteration table where group A is slower per iteration but
faster per edge than group B. -/
def cex3df : List Iter.Row :=
  [{ graph_type := "A", iteration_time_ns := 100, time_per_edge_ns := some 1,
     degree := 1, category := none },
   { graph_type := "B", iteration_time_ns := 10, time_per_edge_ns := some 5,
     degree := 1, category := none }]

/-- A benchmark CSV whose `runtime_ms` column contains non-numeric text. -/
def c7raw : List Bench.RawRow :=
  [{ graph_type := some "A", runtime_ms := Cell.txt "abc", path_found := Cell.num 1,
     nodes_visited := Cell.na, edges_relaxed := Cell.na, path_length := Cell.na,
     total_weight := Cell.na, memory_used_bytes := Cell.na },
   { graph_type := some "A", runtime_ms := Cell.num 5, path_found := Cell.num 1,
     nodes_visited := Cell.na, edges_relaxed := Cell.na, path_length := Cell.na,
     total_weight := Cell.na, memory_used_bytes := Cell.na }]

/-- A pre-coercion iteration frame with two groups, for the C10 witness. -/
def wPre : List Iter.PreRow :=
  [{ graph_type := some "A", iteration_time_ns := some 1,
     time_per_edge_ns := Cell.num 1, degree := Cell.num 1, category := none },
   { graph_type := some "B", iteration_time_ns := some 2,
     time_per_edge_ns := Cell.num 1, degree := Cell.num 1, category := none }]

section ValidsEval

theorem valids_cons_some (a : ℚ) (t : List (Option ℚ)) :
    valids (some a :: t) = a :: valids t := rfl

theorem valids_cons_none (t : List (Option ℚ)) : valids (none :: t) = valids t := rfl

theorem valids_nil : valids [] = [] := rfl

end ValidsEval

/-- **C7 (the code, at the failing input).** A benchmark CSV whose
`runtime_ms` column contains the text `"abc"` in one row makes the loader
raise (the pre-coercion `df['runtime_ms'] > 0` comparison on an object-dtype
column), instead of dropping that row: the claim's "malformed rows never
crash the run" is violated by the code. -/
theorem C7_malformed_timing_row_crashes_loader :
    Bench.load_and_clean_data c7raw = Except.error Bench.typeErrMsg := rfl

/-- **C1, counterexample.** The iteration pipeline's loader keeps a row with
timing −5 (its removal count is 0): rows with timing ≤ 0 are *not* dropped
by that loader, refuting the claim for the iteration pipeline. -/
theorem C1_counterexample_iteration_keeps_negative :
    Iter.load_and_clean_data cex1raw =
      Except.ok
        ([{ graph_type := "A", iteration_time_ns := -5, time_per_edge_ns := some 1,
            degree := 1, category := none },
          { graph_type := "A", iteration_time_ns := 5, time_per_edge_ns := some 1,
            degree := 1, category := none }], 0) := by
  have htimes : ((Iter.preOf cex1raw).filter
      (fun x => Iter.sel (some "A") x.graph_type)).map (fun x => x.iteration_time_ns) =
      [some (-5), some 5] := rfl
  have hex1 : Iter.exceeds [some (-5 : ℚ), some 5] (some (-5)) = false := by
    have hred : Iter.exceeds [some (-5 : ℚ), some 5] (some (-5)) =
        (if 2 ≤ (valids [some (-5 : ℚ), some 5]).length then
          decide (meanQ (valids [some (-5 : ℚ), some 5]) < -5) &&
            decide (25 * varQ (valids [some (-5 : ℚ), some 5]) <
              (-5 - meanQ (valids [some (-5 : ℚ), some 5])) ^ 2)
        else false) := rfl
    rw [hred, show valids [some (-5 : ℚ), some 5] = [-5, 5] from rfl,
      if_pos (by norm_num)]
    norm_num [meanQ, varQ]
  have hex2 : Iter.exceeds [some (-5 : ℚ), some 5] (some 5) = false := by
    have hred : Iter.exceeds [some (-5 : ℚ), some 5] (some 5) =
        (if 2 ≤ (valids [some (-5 : ℚ), some 5]).length then
          decide (meanQ (valids [some (-5 : ℚ), some 5]) < 5) &&
            decide (25 * varQ (valids [some (-5 : ℚ), some 5]) <
              (5 - meanQ (valids [some (-5 : ℚ), some 5])) ^ 2)
        else false) := rfl
    rw [hred, show valids [some (-5 : ℚ), some 5] = [-5, 5] from rfl,
      if_pos (by norm_num)]
    norm_num [meanQ, varQ]
  have hpre : Iter.preOf cex1raw =
      [{ graph_type := some "A", iteration_time_ns := some (-5),
         time_per_edge_ns := Cell.num 1, degree := Cell.num 1, category := none },
       { graph_type := some "A", iteration_time_ns := some 5,
         time_per_edge_ns := Cell.num 1, degree := Cell.num 1, category := none }] := rfl
  have hstep : Iter.stepRemove (some "A") (Iter.preOf cex1raw) = Iter.preOf cex1raw := by
    rw [Iter.stepRemove]
    refine List.filter_eq_self.mpr ?_
    intro r hr
    simp only [htimes]
    rw [hpre] at hr
    rcases List.mem_cons.mp hr with rfl | hr
    · simp [Iter.sel, hex1]
    · rcases List.mem_cons.mp hr with rfl | hr
      · simp [Iter.sel, hex2]
      · cases hr
  rw [Iter.load_and_clean_data, if_neg (by decide),
    show uniqueFirst ((Iter.preOf cex1raw).map (fun r => r.graph_type)) =
      [some "A"] from rfl,
    show Iter.outlierClean [some "A"] (Iter.preOf cex1raw) =
      Iter.stepRemove (some "A") (Iter.preOf cex1raw) from rfl,
    hstep]
  rfl

/-- **C2, counterexample.** A group with a single observation: its sample
standard deviation (`ddof=1`) is `NaN`, so the coefficient of variation of
group `A` of this input is `NaN` (`none`) — not a number `≥ 0`, refuting
"CoV is ≥ 0 for every group of every input". -/
theorem C2_counterexample_singleton_cov_nan :
    Bench.coefficient_of_variation (Bench.groupRuntimes cex2df "A") = none := by
  rw [show Bench.groupRuntimes cex2df "A" = [5] from rfl,
    Bench.coefficient_of_variation, if_pos (by norm_num [meanQ]), stdO,
    if_neg (by norm_num), Option.map_none']

/-- **C3, counterexample.** The iteration summary of `cex3df` is ordered
`[A, B]` (sorted by mean time per edge), but A's mean timing is 100 and B's
is 10: the summary is *not* sorted ascending by mean timing, refuting the
claim for the iteration pipeline. -/
theorem C3_counterexample_iteration_sort_key :
    ¬ List.Pairwise
        (fun a b : Iter.Stat =>
          a.avg_iteration_time_ns ≤ b.avg_iteration_time_ns)
        (Iter.compute_summary_stats cex3df) := by
  have h1 : meanO [some (1 : ℚ)] = some 1 := by
    rw [meanO, show valids [some (1 : ℚ)] = [1] from rfl, if_neg (by simp)]
    norm_num [meanQ]
  have h5 : meanO [some (5 : ℚ)] = some 5 := by
    rw [meanO, show valids [some (5 : ℚ)] = [5] from rfl, if_neg (by simp)]
    norm_num [meanQ]
  have hstatLe : Iter.statLe (Iter.mkStat cex3df "A") (Iter.mkStat cex3df "B") := by
    show optLeB (Iter.mkStat cex3df "A").avg_time_per_edge_ns
        (Iter.mkStat cex3df "B").avg_time_per_edge_ns = true
    rw [show (Iter.mkStat cex3df "A").avg_time_per_edge_ns =
        meanO [some (1 : ℚ)] from rfl,
      show (Iter.mkStat cex3df "B").avg_time_per_edge_ns =
        meanO [some (5 : ℚ)] from rfl, h1, h5]
    norm_num [optLeB]
  have hsum : Iter.compute_summary_stats cex3df =
      [Iter.mkStat cex3df "A", Iter.mkStat cex3df "B"] := by
    rw [Iter.compute_summary_stats,
      show Iter.keys cex3df = ["A", "B"] from rfl, List.map_cons, List.map_cons,
      List.map_nil]
    show List.orderedInsert Iter.statLe (Iter.mkStat cex3df "A")
        (List.orderedInsert Iter.statLe (Iter.mkStat cex3df "B") []) = _
    rw [show List.orderedInsert Iter.statLe (Iter.mkStat cex3df "B") [] =
        [Iter.mkStat cex3df "B"] from rfl]
    rw [List.orderedInsert, if_pos hstatLe]
  rw [hsum]
  intro hpair
  have hle := List.rel_of_pairwise_cons hpair (List.mem_cons_self _ _)
  rw [show (Iter.mkStat cex3df "A").avg_iteration_time_ns =
      meanQ [100] from rfl,
    show (Iter.mkStat cex3df "B").avg_iteration_time_ns =
      meanQ [10] from rfl] at hle
  norm_num [meanQ] at hle

/-! ## Witnesses -/

theorem C1_benchmark_loader_drops_nonpositive_witness :
    (∀ r ∈ wBdf1, 0 < r.runtime_ms) ∧
      1 = wBRaw.countP (fun row => !Bench.keepRuntime row) :=
  C1_benchmark_loader_drops_nonpositive wBRaw wBdf1 1 rfl

theorem C9_zero_timing_check_never_fires_witness :
    Bench.zero_runtime_count wBdf1 = 0 ∧ Bench.zero_runtime_findings wBdf1 = [] :=
  C9_zero_timing_check_never_fires wBRaw wBdf1 1 rfl

theorem C2_coefficient_of_variation_properties_witness :
    ((∀ r ∈ wBdf2, 0 < r.runtime_ms) →
      Bench.coefficient_of_variation (Bench.groupRuntimes wBdf2 "A") =
        Bench.cov_spec (Bench.groupRuntimes wBdf2 "A")) ∧
    (meanQ (Bench.groupRuntimes wBdf2 "A") = 0 →
      Bench.coefficient_of_variation (Bench.groupRuntimes wBdf2 "A") = some 0) ∧
    (2 ≤ (Bench.groupRuntimes wBdf2 "A").length →
      ∃ c : ℝ, Bench.coefficient_of_variation (Bench.groupRuntimes wBdf2 "A") = some c ∧
        0 ≤ c) :=
  C2_coefficient_of_variation_properties wBdf2 "A" (by decide)

theorem C6_percentiles_monotone_witness :
    (Bench.mkStat wBdf2 "A").median_runtime_ms ≤
        (Bench.mkStat wBdf2 "A").p95_runtime_ms ∧
      (Bench.mkStat wBdf2 "A").p95_runtime_ms ≤
        (Bench.mkStat wBdf2 "A").p99_runtime_ms ∧
      (Bench.mkStat wBdf2 "A").p99_runtime_ms ≤
        (Bench.mkStat wBdf2 "A").max_runtime_ms :=
  C6_percentiles_monotone wBdf2 (Bench.mkStat wBdf2 "A")
    (by rw [show Bench.compute_summary_stats wBdf2 = [Bench.mkStat wBdf2 "A"] from rfl]
        exact List.mem_cons_self _ _)

theorem C8_runtime_per_MB_zero_when_memory_zero_witness :
    (Bench.mkStat wBdf2 "A").avg_runtime_per_MB = 0 :=
  C8_runtime_per_MB_zero_when_memory_zero wBdf2 (Bench.mkStat wBdf2 "A")
    (by rw [show Bench.compute_summary_stats wBdf2 = [Bench.mkStat wBdf2 "A"] from rfl]
        exact List.mem_cons_self _ _)
    (by show meanO (Bench.groupMems wBdf2 "A") = some 0
        rw [show Bench.groupMems wBdf2 "A" = [some 0, some 0] from rfl, meanO,
          show valids [some (0 : ℚ), some 0] = [0, 0] from rfl, if_neg (by simp)]
        norm_num [meanQ])

theorem C4_correlation_nan_on_zero_variance_witness :
    (corrO [some 1, some 1] [some 0, some 5] = none ∧
        corrO [some 1, some 1] [some 0, some 5] ≠ some 0) ∧
      Iter.groupCorr cex3df "A" = none :=
  C4_correlation_nan_on_zero_variance [some 1, some 1] [some 0, some 5] cex3df "A" 100
    (Or.inl (by
      rw [varO, show valids [some (1 : ℚ), some 1] = [1, 1] from rfl,
        if_pos (by norm_num)]
      norm_num [varQ, meanQ]))
    (by decide)

theorem C10_outlier_removal_group_independent_witness :
    (Iter.outlierClean [some "A", some "B"] wPre =
      wPre.filter (fun r =>
        !([some "A", some "B"].any (fun k => Iter.sel k r.graph_type &&
            Iter.exceeds (Iter.groupTimes wPre k) r.iteration_time_ns))) ∧
      Iter.outlierClean [some "A", some "B"] wPre =
        Iter.outlierClean [some "B", some "A"] wPre) :=
  C10_outlier_removal_group_independent wPre [some "A", some "B"]
    [some "B", some "A"] (by decide) (List.Perm.swap (some "B") (some "A") [])
